import Mathlib

/-!
Shallow embedding of the long-horizon skill runner
(`packages/tm-core/src/modules/skill-run/services/skill-run.service.ts`)
and proofs about its specification claims.

Strings are modelled as `List Char`; JavaScript string primitives
(`indexOf`, `includes`, `trim`, `split`, `toLowerCase`, `JSON.parse`,
`JSON.stringify`) are embedded as executable Lean functions on that type.
-/

namespace SkillRun

set_option maxRecDepth 16000

/-- JavaScript strings are modelled as lists of characters. -/
abbrev Str := List Char

/-- Coerce a Lean string literal into the character-list model. -/
def str (s : String) : Str := s.toList

/-- ASCII whitespace characters trimmed by JavaScript `String.prototype.trim`
(the non-ASCII whitespace code points also trimmed by JS never occur in the
embedded constants). -/
def isJsWs (c : Char) : Bool :=
  c == ' ' || c == '\t' || c == '\n' || c == '\r' || c == '\x0b' || c == '\x0c'

/-- Does `s` start with `pat`? -/
def startsWithCL : Str → Str → Bool
  | _, [] => true
  | [], _ :: _ => false
  | c :: cs, d :: ds => c == d && startsWithCL cs ds

/-- Index of the first occurrence of `pat` in `s`; JS `String.prototype.indexOf`
(`none` plays the role of `-1`). -/
def findSub (pat : Str) : Str → Option Nat
  | [] => if startsWithCL [] pat then some 0 else none
  | c :: rest =>
    if startsWithCL (c :: rest) pat then some 0
    else (findSub pat rest).map (· + 1)

/-- JS `String.prototype.includes`. -/
def containsSub (s pat : Str) : Bool := (findSub pat s).isSome

/-- Number of start positions at which `pat` occurs in `s` (the markers counted
with it never overlap themselves, so this agrees with `match(/pat/g).length`). -/
def countOccur (pat : Str) : Str → Nat
  | [] => if startsWithCL [] pat then 1 else 0
  | c :: rest =>
    (if startsWithCL (c :: rest) pat then 1 else 0) + countOccur pat rest

/-- Drop leading JS whitespace. -/
def dropLeadWs (s : Str) : Str := s.dropWhile isJsWs

/-- JS `String.prototype.trimEnd`. -/
def trimEndCL (s : Str) : Str := (s.reverse.dropWhile isJsWs).reverse

/-- JS `String.prototype.trim`. -/
def trimCL (s : Str) : Str := trimEndCL (dropLeadWs s)

/-- JS `String.prototype.toLowerCase` (ASCII range, which is all the code uses). -/
def toLowerCL (s : Str) : Str := s.map Char.toLower

/-- JS `output.split(/\r?\n/)`: split on `\n` or `\r\n`; a lone `\r` is kept. -/
def splitLinesJs : Str → List Str
  | [] => [[]]
  | '\r' :: '\n' :: rest => [] :: splitLinesJs rest
  | '\n' :: rest => [] :: splitLinesJs rest
  | c :: rest =>
    match splitLinesJs rest with
    | [] => [[c]]
    | l :: ls => (c :: l) :: ls

/-- Fuel-bounded decimal digit rendering (the fuel `n + 1` always suffices
since `n / 10 < n` for `n ≥ 10`). -/
def natDigitsAux : Nat → Nat → Str
  | 0, _ => []
  | fuel + 1, n =>
    if n < 10 then [Nat.digitChar n]
    else natDigitsAux fuel (n / 10) ++ [Nat.digitChar (n % 10)]

/-- Decimal digit list of a natural number (JS number-to-string on the
non-negative integers the runner renders). -/
def natDigits (n : Nat) : Str := natDigitsAux (n + 1) n

/-- Decimal rendering of an integer (JS `String(number)` for integral values). -/
def intToStr (i : Int) : Str :=
  if i < 0 then '-' :: natDigits i.natAbs else natDigits i.natAbs

/- ===== JSON model (JavaScript `JSON.parse`) ===== -/

/-- JSON values as produced by `JSON.parse`. Numbers keep their raw source
text, which is all the embedded code ever inspects. -/
inductive Json where
  | null
  | bool (b : Bool)
  | num (raw : Str)
  | str (s : Str)
  | arr (elems : List Json)
  | obj (members : List (Str × Json))
deriving Repr

/-- Whitespace accepted between JSON tokens (per the JSON grammar). -/
def isJsonWs (c : Char) : Bool := c == ' ' || c == '\t' || c == '\n' || c == '\r'

/-- Skip inter-token JSON whitespace. -/
def skipJsonWs (s : Str) : Str := s.dropWhile isJsonWs

/-- Hexadecimal digit test for `\uXXXX` escapes. -/
def isHexDigitCL (c : Char) : Bool :=
  c.isDigit || ('a' ≤ c && c ≤ 'f') || ('A' ≤ c && c ≤ 'F')

/-- Value of a hexadecimal digit. -/
def hexVal (c : Char) : Nat :=
  if c.isDigit then c.toNat - '0'.toNat
  else if 'a' ≤ c then c.toNat - 'a'.toNat + 10
  else c.toNat - 'A'.toNat + 10

/-- Parse the body of a JSON string after the opening quote; returns the
decoded content and the remainder after the closing quote. Surrogate-pair
recombination is not modelled (no embedded constant uses it). -/
def parseJsonString (fuel : Nat) (s : Str) : Option (Str × Str) :=
  match fuel with
  | 0 => none
  | fuel + 1 =>
    match s with
    | [] => none
    | '"' :: rest => some ([], rest)
    | '\\' :: esc =>
      match esc with
      | '"' :: r => (parseJsonString fuel r).map (fun p => ('"' :: p.1, p.2))
      | '\\' :: r => (parseJsonString fuel r).map (fun p => ('\\' :: p.1, p.2))
      | '/' :: r => (parseJsonString fuel r).map (fun p => ('/' :: p.1, p.2))
      | 'b' :: r => (parseJsonString fuel r).map (fun p => ('\x08' :: p.1, p.2))
      | 'f' :: r => (parseJsonString fuel r).map (fun p => ('\x0c' :: p.1, p.2))
      | 'n' :: r => (parseJsonString fuel r).map (fun p => ('\n' :: p.1, p.2))
      | 'r' :: r => (parseJsonString fuel r).map (fun p => ('\r' :: p.1, p.2))
      | 't' :: r => (parseJsonString fuel r).map (fun p => ('\t' :: p.1, p.2))
      | 'u' :: h1 :: h2 :: h3 :: h4 :: r =>
        if isHexDigitCL h1 && isHexDigitCL h2 && isHexDigitCL h3 && isHexDigitCL h4 then
          let code := ((hexVal h1 * 16 + hexVal h2) * 16 + hexVal h3) * 16 + hexVal h4
          (parseJsonString fuel r).map (fun p => (Char.ofNat code :: p.1, p.2))
        else none
      | _ => none
    | c :: rest =>
      if c.toNat < 0x20 then none
      else (parseJsonString fuel rest).map (fun p => (c :: p.1, p.2))

/-- Longest digit run at the front of `s`, and the rest. -/
def spanDigits (s : Str) : Str × Str := (s.takeWhile Char.isDigit, s.dropWhile Char.isDigit)

/-- Parse the optional fraction part of a JSON number. -/
def parseJsonFrac (s : Str) : Option (Str × Str) :=
  match s with
  | '.' :: r =>
    let p := spanDigits r
    if p.1.isEmpty then none else some ('.' :: p.1, p.2)
  | _ => some ([], s)

/-- Parse the optional exponent part of a JSON number. -/
def parseJsonExp (s : Str) : Option (Str × Str) :=
  match s with
  | c :: r =>
    if c == 'e' || c == 'E' then
      let signAndRest : Str × Str :=
        match r with
        | '+' :: rr => (['+'], rr)
        | '-' :: rr => (['-'], rr)
        | _ => ([], r)
      let p := spanDigits signAndRest.2
      if p.1.isEmpty then none else some (c :: signAndRest.1 ++ p.1, p.2)
    else some ([], s)
  | [] => some ([], s)

/-- Parse a JSON number token (raw text kept), per the JSON grammar. -/
def parseJsonNumber (s : Str) : Option (Str × Str) :=
  let signAndRest : Str × Str :=
    match s with
    | '-' :: r => (['-'], r)
    | _ => ([], s)
  let intAndRest : Option (Str × Str) :=
    match signAndRest.2 with
    | '0' :: r1 => some (['0'], r1)
    | c :: _ =>
      if c.isDigit then
        let p := spanDigits signAndRest.2
        some (p.1, p.2)
      else none
    | [] => none
  match intAndRest with
  | none => none
  | some (ip, r1) =>
    match parseJsonFrac r1 with
    | none => none
    | some (fp, r2) =>
      match parseJsonExp r2 with
      | none => none
      | some (ep, r3) => some (signAndRest.1 ++ ip ++ fp ++ ep, r3)

mutual

/-- Parse one JSON value (leading whitespace allowed); fuel-bounded. -/
def parseJsonValue (fuel : Nat) (s : Str) : Option (Json × Str) :=
  match fuel with
  | 0 => none
  | fuel + 1 =>
    match skipJsonWs s with
    | 'n' :: 'u' :: 'l' :: 'l' :: r => some (.null, r)
    | 't' :: 'r' :: 'u' :: 'e' :: r => some (.bool true, r)
    | 'f' :: 'a' :: 'l' :: 's' :: 'e' :: r => some (.bool false, r)
    | '"' :: r => (parseJsonString (r.length + 1) r).map (fun p => (.str p.1, p.2))
    | '{' :: r => parseJsonObjRest fuel r [] true
    | '[' :: r => parseJsonArrRest fuel r [] true
    | s' => (parseJsonNumber s').map (fun p => (.num p.1, p.2))

/-- Parse the members of a JSON object after the opening brace. -/
def parseJsonObjRest (fuel : Nat) (s : Str) (acc : List (Str × Json)) (first : Bool) :
    Option (Json × Str) :=
  match fuel with
  | 0 => none
  | fuel + 1 =>
    match skipJsonWs s, first with
    | '}' :: r, _ => if first then some (.obj acc.reverse, r) else some (.obj acc.reverse, r)
    | ',' :: r, false => parseJsonMember fuel r acc
    | s0, true => parseJsonMember fuel s0 acc
    | _, false => none

/-- Parse one `"key" : value` member and continue with the object tail. -/
def parseJsonMember (fuel : Nat) (s : Str) (acc : List (Str × Json)) :
    Option (Json × Str) :=
  match fuel with
  | 0 => none
  | fuel + 1 =>
    match skipJsonWs s with
    | '"' :: r =>
      match parseJsonString (r.length + 1) r with
      | none => none
      | some (key, r2) =>
        match skipJsonWs r2 with
        | ':' :: r3 =>
          match parseJsonValue fuel r3 with
          | none => none
          | some (v, r4) => parseJsonObjRest fuel r4 ((key, v) :: acc) false
        | _ => none
    | _ => none

/-- Parse the elements of a JSON array after the opening bracket. -/
def parseJsonArrRest (fuel : Nat) (s : Str) (acc : List Json) (first : Bool) :
    Option (Json × Str) :=
  match fuel with
  | 0 => none
  | fuel + 1 =>
    match skipJsonWs s, first with
    | ']' :: r, _ => some (.arr acc.reverse, r)
    | ',' :: r, false =>
      match parseJsonValue fuel r with
      | none => none
      | some (v, r2) => parseJsonArrRest fuel r2 (v :: acc) false
    | s0, true =>
      match parseJsonValue fuel s0 with
      | none => none
      | some (v, r2) => parseJsonArrRest fuel r2 (v :: acc) false
    | _, false => none

end

/-- JS `JSON.parse`: parse a complete value, then require only trailing
whitespace. Returns `none` where `JSON.parse` would throw. -/
def jsonParse (s : Str) : Option Json :=
  match parseJsonValue (s.length + 1) s with
  | some (v, rest) => if (skipJsonWs rest).isEmpty then some v else none
  | none => none

/-- Property lookup on a parsed JSON object. `JSON.parse` lets a duplicate key
overwrite the earlier one, so the last occurrence wins. -/
def jsonGetField (members : List (Str × Json)) (key : Str) : Option Json :=
  (members.reverse.find? (fun kv => kv.1 == key)).map (·.2)

/- ===== Sentinel parser ===== -/

/-- Status field of a parsed sentinel (`'done' | 'failed'`). -/
inductive ResultStatus where
  | done
  | failed
deriving DecidableEq, Repr

/-- Validation field of a parsed sentinel (`'pass' | 'fail' | 'unknown'`). -/
inductive ResultValidation where
  | pass
  | fail
  | unknown
deriving DecidableEq, Repr

/-- Embedding of the source interface `ParsedTaskResult`. -/
structure ParsedTaskResult where
  status : ResultStatus
  validation : ResultValidation
  summary : Str
  raw : Str
deriving DecidableEq, Repr

/-- Source constant `RESULT_PREFIX = 'TM_RESULT:'` (line 37). -/
def RESULT_MARK : Str := str "TM_RESULT:"

/-- Body of the scanning loop of `extractTaskResult` (lines 581-617) applied to
one line, parametrised by the sentinel marker. Every `continue` of the source
becomes `none`. A `status`/`validation` field that is not a string raises a
`TypeError` inside the `try` block, which the `catch` turns into `continue`;
a JSON `null` passes through optional chaining as `undefined` instead. -/
def parseResultLine (marker : Str) (line : Str) : Option ParsedTaskResult :=
  match findSub marker line with
  | none => none
  | some i =>
    let payload := trimCL (line.drop (i + marker.length))
    match payload.findIdx? (· == '{'), (payload.reverse.findIdx? (· == '}')) with
    | some jsonStart, some revEnd =>
      let jsonEnd := payload.length - 1 - revEnd
      if jsonEnd < jsonStart then none
      else
        let rawJson := (payload.drop jsonStart).take (jsonEnd + 1 - jsonStart)
        match jsonParse rawJson with
        | some (Json.obj members) =>
          match jsonGetField members (str "status") with
          | some (Json.str sv) =>
            let status := toLowerCL sv
            let st? : Option ResultStatus :=
              if status == str "done" then some .done
              else if status == str "failed" then some .failed
              else none
            match st? with
            | none => none
            | some st =>
              let validation? : Option ResultValidation :=
                match jsonGetField members (str "validation") with
                | none => some .unknown
                | some Json.null => some .unknown
                | some (Json.str vv) =>
                  let v := toLowerCL vv
                  some (if v == str "pass" then .pass
                        else if v == str "fail" then .fail
                        else if v == str "unknown" then .unknown
                        else .unknown)
                | some _ => none
              match validation? with
              | none => none
              | some v =>
                let summary : Str :=
                  match jsonGetField members (str "summary") with
                  | some (Json.str sm) => trimCL sm
                  | _ => []
                some { status := st, validation := v, summary := summary, raw := rawJson }
          | _ => none
        | _ => none
    | _, _ => none

/-- Embedding of `extractTaskResult` (lines 578-620): scan the split lines from
the last to the first and return the first line that yields a valid parse;
the downward `for` loop with `continue` is exactly `findSome?` on the
reversed line list. -/
def extractTaskResult (output : Str) : Option ParsedTaskResult :=
  ((splitLinesJs output).reverse).findSome? (parseResultLine RESULT_MARK)

/- ===== Outcome resolver ===== -/

/-- Timeout kinds of the executor (`'idle' | 'hard'`). -/
inductive TimeoutKind where
  | idle
  | hard
deriving DecidableEq, Repr

/-- Embedding of the source interface `CodexExecResult`. -/
structure CodexExecResult where
  exitCode : Option Int
  signal : Option Str
  durationMs : Nat
  logFile : Str
  timedOut : Bool
  timeoutMs : Option Int
  timeoutKind : Option TimeoutKind
  parsedResult : Option ParsedTaskResult
deriving DecidableEq, Repr

/-- Embedding of the source interface `ExecutionOutcome`. -/
structure ExecutionOutcome where
  success : Bool
  note : Option Str
deriving DecidableEq, Repr

/-- Render a `ResultStatus` the way the source interpolates it. -/
def statusText : ResultStatus → Str
  | .done => str "done"
  | .failed => str "failed"

/-- Render a `ResultValidation` the way the source interpolates it. -/
def validationText : ResultValidation → Str
  | .pass => str "pass"
  | .fail => str "fail"
  | .unknown => str "unknown"

/-- Render a `TimeoutKind`; `execResult.timeoutKind || 'unknown'`. -/
def timeoutKindText : Option TimeoutKind → Str
  | some .idle => str "idle"
  | some .hard => str "hard"
  | none => str "unknown"

/-- JS `String(x)` for a nullable integer. -/
def intOptText : Option Int → Str
  | some i => intToStr i
  | none => str "null"

/-- JS `String(x)` for a nullable signal string. -/
def strOptText : Option Str → Str
  | some s => s
  | none => str "null"

/-- Embedding of `combineNotes` (lines 547-555): trim each note, drop the
absent and empty ones, join the rest with `' | '`. -/
def combineNotes (notes : List (Option Str)) : Option Str :=
  let merged := (notes.filterMap (fun n => n.map trimCL)).filter (fun s => !s.isEmpty)
  if merged.isEmpty then none
  else some (merged.foldr (fun s acc => if acc.isEmpty then s else s ++ str " | " ++ acc) [])

/-- Note text for a parsed result in `resolveExecutionOutcome`. -/
def parsedNote (p : ParsedTaskResult) : Option Str :=
  combineNotes
    [some (str "parsed_result status=" ++ statusText p.status ++
        str " validation=" ++ validationText p.validation),
     if p.summary.isEmpty then none else some (str "summary: " ++ p.summary)]

/-- Embedding of `resolveExecutionOutcome` (lines 504-545), decision order as
in the source: parsed result first, then timeout, then the exit-code-zero
fallback, then failure. -/
def resolveExecutionOutcome (execResult : CodexExecResult) : ExecutionOutcome :=
  match execResult.parsedResult with
  | some parsed =>
    if parsed.status = .done ∧ parsed.validation ≠ .fail then
      { success := true, note := parsedNote parsed }
    else
      { success := false, note := parsedNote parsed }
  | none =>
    if execResult.timedOut then
      let msText :=
        match execResult.timeoutMs with
        | some ms => intToStr ms ++ str "ms"
        | none => str "unknown duration"
      { success := false,
        note := some (str "executor " ++ timeoutKindText execResult.timeoutKind ++
          str " timeout after " ++ msText) }
    else if execResult.exitCode = some 0 then
      { success := true, note := some (str "exit_code_fallback success (missing TM_RESULT)") }
    else
      { success := false,
        note := some (str "executor failed exitCode=" ++ intOptText execResult.exitCode ++
          str " signal=" ++ strOptText execResult.signal) }

/- ===== Checkpoint state and persistence ===== -/

/-- Embedding of the source interface `CheckpointState`. The `attempts`
record (a JS object keyed by task id) is an insertion-ordered association
list. -/
structure CheckpointState where
  updatedAt : Str
  attempts : List (Str × Nat)
  doneTaskIds : List Str
  blockedTaskIds : List Str
  lastTaskId : Option Str
deriving DecidableEq, Repr

/-- JS object read `m[k]` on the attempts record. -/
def recordGet : List (Str × Nat) → Str → Option Nat
  | [], _ => none
  | p :: rest, k => if p.1 = k then some p.2 else recordGet rest k

/-- JS object write `m[k] = v`: overwrite in place, or append a new key. -/
def recordSet : List (Str × Nat) → Str → Nat → List (Str × Nat)
  | [], k, v => [(k, v)]
  | p :: rest, k, v => if p.1 = k then (k, v) :: rest else p :: recordSet rest k v

/-- The checkpoint produced by `loadCheckpoint` when the file is missing
(line 961). -/
def freshCheckpoint (now : Str) : CheckpointState :=
  { updatedAt := now, attempts := [], doneTaskIds := [], blockedTaskIds := [], lastTaskId := none }

/-- JSON string escaping used by `JSON.stringify`. -/
def escapeJsonChars : Str → Str
  | [] => []
  | c :: rest =>
    (if c = '"' then ['\\', '"']
     else if c = '\\' then ['\\', '\\']
     else if c = '\n' then ['\\', 'n']
     else if c = '\r' then ['\\', 'r']
     else if c = '\t' then ['\\', 't']
     else if c = '\x08' then ['\\', 'b']
     else if c = '\x0c' then ['\\', 'f']
     else if c.toNat < 0x20 then
       ['\\', 'u', '0', '0', Nat.digitChar (c.toNat / 16), Nat.digitChar (c.toNat % 16)]
     else [c]) ++ escapeJsonChars rest

/-- JSON string literal rendering. -/
def jsonQuote (s : Str) : Str := '"' :: (escapeJsonChars s ++ ['"'])

/-- Newline plus two spaces of indentation per depth level
(`JSON.stringify(_, null, 2)`). -/
def ind (depth : Nat) : Str := '\n' :: List.replicate (2 * depth) ' '

/-- Join rendered items with a separator. -/
def joinSep (sep : Str) : List Str → Str
  | [] => []
  | [x] => x
  | x :: y :: xs => x ++ sep ++ joinSep sep (y :: xs)

/-- Render a brace- or bracket-delimited block of already-rendered items with
two-space indentation at the given depth, as `JSON.stringify(_, null, 2)`
does; empty blocks collapse. -/
def renderJsonBlock (openC closeC : Char) (depth : Nat) (items : List Str) : Str :=
  match items with
  | [] => [openC, closeC]
  | _ => [openC] ++ ind depth ++ joinSep (',' :: ind depth) items ++ ind (depth - 1) ++ [closeC]

/-- The serialization `JSON.stringify(checkpoint, null, 2)` of a checkpoint:
keys in insertion order (`updatedAt`, `attempts`, `doneTaskIds`,
`blockedTaskIds`, then `lastTaskId` when set; an `undefined` field is
omitted by `JSON.stringify`). -/
def stringifyCheckpoint (cp : CheckpointState) : Str :=
  let attemptsItems := cp.attempts.map (fun p => jsonQuote p.1 ++ str ": " ++ natDigits p.2)
  let doneItems := cp.doneTaskIds.map jsonQuote
  let blockedItems := cp.blockedTaskIds.map jsonQuote
  let fields :=
    [jsonQuote (str "updatedAt") ++ str ": " ++ jsonQuote cp.updatedAt,
     jsonQuote (str "attempts") ++ str ": " ++ renderJsonBlock '{' '}' 2 attemptsItems,
     jsonQuote (str "doneTaskIds") ++ str ": " ++ renderJsonBlock '[' ']' 2 doneItems,
     jsonQuote (str "blockedTaskIds") ++ str ": " ++ renderJsonBlock '[' ']' 2 blockedItems]
    ++ (match cp.lastTaskId with
        | some id => [jsonQuote (str "lastTaskId") ++ str ": " ++ jsonQuote id]
        | none => [])
  renderJsonBlock '{' '}' 1 fields

/-- File-system effects issued by the persistence layer. -/
inductive FsOp where
  | write (file contents : Str)
  | append (file contents : Str)
  | rename (src dst : Str)
deriving DecidableEq, Repr

/-- Is this operation a rename? -/
def FsOp.isRename : FsOp → Bool
  | .rename _ _ => true
  | _ => false

/-- Embedding of `saveCheckpoint` (lines 974-977): set `updatedAt` to the
current timestamp, serialize with `JSON.stringify(_, null, 2)`, and issue a
single direct `writeFile` of the serialized text; the returned trace lists
the file-system operations performed, in order. -/
def saveCheckpoint (now : Str) (file : Str) (checkpoint : CheckpointState) :
    CheckpointState × List FsOp :=
  let cp := { checkpoint with updatedAt := now }
  (cp, [FsOp.write file (stringifyCheckpoint cp)])

/- ===== Runner loop ===== -/

/-- Task statuses of the external task store (`TASK_STATUSES` plus the
`completed` alias, from `common/constants`). -/
inductive TaskStatus where
  | pending
  | inProgress
  | done
  | completed
  | blocked
  | cancelled
  | deferred
  | review
deriving DecidableEq, Repr

/-- The slice of a task the runner loop reads (id and title; the remaining
fields only feed the prompt, which no claim concerns). -/
structure TaskLite where
  id : Str
  title : Str
deriving DecidableEq, Repr

/-- Ledger entry statuses (`'IN_PROGRESS' | 'DONE' | 'FAILED' | 'BLOCKED'`). -/
inductive LedgerStatus where
  | inProgress
  | done
  | failed
  | blocked
deriving DecidableEq, Repr

/-- Embedding of the source interface `LedgerEntry`. -/
structure LedgerEntry where
  timestamp : Str
  taskId : Str
  title : Str
  attempt : Nat
  status : LedgerStatus
  exitCode : Option Int
  durationMs : Nat
  logFile : Str
  notes : Option Str
deriving DecidableEq, Repr

/-- State threaded through the runner loop: the external task store's status
map, the in-memory checkpoint, the append-only ledger, and the run counter. -/
structure RunState where
  store : Str → TaskStatus
  checkpoint : CheckpointState
  ledger : List LedgerEntry
  totalRuns : Nat

/-- Embedding of `pushUnique` (lines 988-993). -/
def pushUnique (items : List Str) (value : Str) : List Str :=
  if items.contains value then items else items ++ [value]

/-- A `tasksDomain.updateStatus` call on the external store. -/
def updateStatus (store : Str → TaskStatus) (id : Str) (st : TaskStatus) :
    Str → TaskStatus :=
  fun k => if k = id then st else store k

/-- One `getNext` answer together with the executor's result for that attempt
and the wall-clock timestamp of the transition; drives one loop iteration. -/
structure StepInput where
  task : TaskLite
  exec : CodexExecResult
  now : Str

/-- Helper: current attempt count of an id, `checkpoint.attempts[taskId] ?? 0`. -/
def attemptsOf (st : RunState) (id : Str) : Nat :=
  (recordGet st.checkpoint.attempts id).getD 0

/-- Embedding of one iteration of the `while` loop of `run` (lines 246-327),
except for the checkpoint/plan file writes, which no loop claim concerns:
increment the attempt count, record `lastTaskId`, move the task to
`in-progress`, classify the executor result, then apply the
success / retry / blocked transition and append the ledger entry. -/
def runStep (maxRetries : Nat) (st : RunState) (inp : StepInput) : RunState :=
  let taskId := inp.task.id
  let attempt := (recordGet st.checkpoint.attempts taskId).getD 0 + 1
  let cp1 := { st.checkpoint with
    attempts := recordSet st.checkpoint.attempts taskId attempt,
    lastTaskId := some taskId }
  let store1 := updateStatus st.store taskId .inProgress
  let outcome := resolveExecutionOutcome inp.exec
  if outcome.success then
    { store := updateStatus store1 taskId .done,
      checkpoint := { cp1 with
        doneTaskIds := pushUnique cp1.doneTaskIds taskId,
        blockedTaskIds := cp1.blockedTaskIds.filter (fun id => id ≠ taskId) },
      ledger := st.ledger ++
        [{ timestamp := inp.now, taskId := taskId, title := inp.task.title,
           attempt := attempt, status := .done, exitCode := inp.exec.exitCode,
           durationMs := inp.exec.durationMs, logFile := inp.exec.logFile,
           notes := outcome.note }],
      totalRuns := st.totalRuns + 1 }
  else
    let reachedLimit := attempt > maxRetries
    let retryNote :=
      if reachedLimit then str "max retries reached: " ++ natDigits maxRetries
      else str "will retry"
    { store :=
        if reachedLimit then updateStatus store1 taskId .blocked
        else updateStatus store1 taskId .pending,
      checkpoint :=
        if reachedLimit then { cp1 with blockedTaskIds := pushUnique cp1.blockedTaskIds taskId }
        else cp1,
      ledger := st.ledger ++
        [{ timestamp := inp.now, taskId := taskId, title := inp.task.title,
           attempt := attempt,
           status := if reachedLimit then .blocked else .failed,
           exitCode := inp.exec.exitCode,
           durationMs := inp.exec.durationMs, logFile := inp.exec.logFile,
           notes := combineNotes [outcome.note, some retryNote] }],
      totalRuns := st.totalRuns + 1 }

/-- Source constant `MAX_RETRIES_DEFAULT = 3` (line 33). -/
def MAX_RETRIES_DEFAULT : Int := 3

/-- The retry bound computed at line 232:
`Math.max(0, options.maxRetries ?? MAX_RETRIES_DEFAULT)`. -/
def effectiveMaxRetries (maxRetries : Option Int) : Nat :=
  (max 0 (maxRetries.getD MAX_RETRIES_DEFAULT)).toNat

/-- The stop condition at line 242:
`options.maxTasks && totalRuns >= options.maxTasks` with JS truthiness, so a
missing or zero `maxTasks` never stops the loop. -/
def maxTasksReached (maxTasks : Option Nat) (totalRuns : Nat) : Bool :=
  match maxTasks with
  | none => false
  | some m => decide (m ≠ 0) && decide (totalRuns ≥ m)

/-- Final status of a run; `withBlocked` models the source's middle value
(the run finished but some task ids stayed blocked), the other two match the
source literally. -/
inductive FinalStatus where
  | allComplete
  | withBlocked
  | error
deriving DecidableEq, Repr

/-- Embedding of the source interface `SkillRunResult`. -/
structure SkillRunResult where
  completedTaskIds : List Str
  blockedTaskIds : List Str
  attempts : List (Str × Nat)
  totalRuns : Nat
  finalStatus : FinalStatus
  errorMessage : Option Str

/-- The result returned when the loop ends without an early error return
(lines 332-338). -/
def finishResult (st : RunState) : SkillRunResult :=
  { completedTaskIds := st.checkpoint.doneTaskIds,
    blockedTaskIds := st.checkpoint.blockedTaskIds,
    attempts := st.checkpoint.attempts,
    totalRuns := st.totalRuns,
    finalStatus := if st.checkpoint.blockedTaskIds.isEmpty then .allComplete else .withBlocked,
    errorMessage := none }

/-- The options of `run` the loop claims depend on; the remaining options
only shape the executor invocation. -/
structure RunOptions where
  maxRetries : Option Int
  maxTasks : Option Nat
  continueOnFailure : Bool

/-- Embedding of the `while` loop of `run` (lines 237-331): the script is the
sequence of `getNext` answers (with each attempt's executor result); an
exhausted script is `getNext` returning `null`. Order as in the source:
`getNext` first, then the `maxTasks` stop condition, then the iteration, then
the `continueOnFailure` early error return. -/
def runLoop (maxRetries : Nat) (maxTasks : Option Nat) (continueOnFailure : Bool) :
    RunState → List StepInput → RunState × SkillRunResult
  | st, [] => (st, finishResult st)
  | st, inp :: rest =>
    if maxTasksReached maxTasks st.totalRuns then (st, finishResult st)
    else
      let st' := runStep maxRetries st inp
      if !(resolveExecutionOutcome inp.exec).success && !continueOnFailure then
        (st', { completedTaskIds := st'.checkpoint.doneTaskIds,
                blockedTaskIds := st'.checkpoint.blockedTaskIds,
                attempts := st'.checkpoint.attempts,
                totalRuns := st'.totalRuns,
                finalStatus := .error,
                errorMessage := some (str "Task " ++ inp.task.id ++
                  str " failed and continueOnFailure=false") })
      else runLoop maxRetries maxTasks continueOnFailure st' rest

/-- Embedding of `run` (lines 226-339) on a fresh session (no existing
checkpoint file): compute the retry bound, start from the fresh checkpoint,
and iterate the loop over the `getNext` script. -/
def runModel (opts : RunOptions) (now : Str) (store : Str → TaskStatus)
    (script : List StepInput) : RunState × SkillRunResult :=
  runLoop (effectiveMaxRetries opts.maxRetries) opts.maxTasks opts.continueOnFailure
    { store := store, checkpoint := freshCheckpoint now, ledger := [], totalRuns := 0 } script

/-- Modelled from the spec: the external task store's `getNext` (module
`tasks/tasks-domain`, not under `src/`) supplies "ordered next-task
selection". Per the spec, tasks in a terminal-complete state are not selected
again, a blocked task is not retried ("on exhaustion, task is marked
blocked"), and the loop itself parks a task at `in-progress` only while it
runs; so a task is eligible for selection exactly when its persisted status
is `pending`. -/
def eligibleNext (store : Str → TaskStatus) (id : Str) : Prop :=
  store id = .pending

/-- Checkpoint states reachable by the runner loop: start from a fresh
checkpoint over an arbitrary store, and take any number of loop iterations
whose selected task is eligible per the task store. -/
inductive Reach (maxRetries : Nat) : RunState → Prop where
  | init (now : Str) (store : Str → TaskStatus) :
      Reach maxRetries
        { store := store, checkpoint := freshCheckpoint now, ledger := [], totalRuns := 0 }
  | step {st : RunState} (inp : StepInput) :
      Reach maxRetries st → eligibleNext st.store inp.task.id →
      Reach maxRetries (runStep maxRetries st inp)

/- ===== Asset initialization ===== -/

/-- Source constant `AGENTS_MARK_START` (line 31). -/
def AGENTS_MARK_START : Str := str "<!-- TM-LONGRUN-START -->"

/-- Source constant `AGENTS_MARK_END` (line 32). -/
def AGENTS_MARK_END : Str := str "<!-- TM-LONGRUN-END -->"

/-- The hook block assembled at line 650. -/
def agentsHookBlock : Str :=
  AGENTS_MARK_START ++
  str "\n## Taskmaster Longrun Hook\nWhen implementation starts, load AGENTS first, then load @.codex/skills/taskmaster-longrun/SKILL.md, then execute one Taskmaster task per Codex run.\n" ++
  AGENTS_MARK_END

/-- Source constant `SKILL_FRONTMATTER` (lines 40-43). -/
def SKILL_FRONTMATTER : Str :=
  str "---\nname: taskmaster-longrun\ndescription: Execute one Taskmaster task per Codex run with checkpoint and ledger discipline.\n---"

/-- Source constant `DEFAULT_SKILL_BODY` (lines 45-55). -/
def DEFAULT_SKILL_BODY : Str :=
  str "# Taskmaster Longrun Skill\n\n## Goal\nUse Taskmaster as the source of truth and execute one task at a time with Codex CLI.\n\n## Rules\n1. Task structure/dependencies come from Taskmaster only.\n2. CSV is runtime ledger, not task source.\n3. Execute only current task; do not auto-pick next inside one Codex call.\n4. Return concise implementation summary and test evidence.\n"

/-- Source constant `DEFAULT_SKILL_TEMPLATE` (line 57). -/
def DEFAULT_SKILL_TEMPLATE : Str := SKILL_FRONTMATTER ++ str "\n\n" ++ DEFAULT_SKILL_BODY

/-- Source constant `DEFAULT_PROGRESS_TEMPLATE` (lines 59-64). -/
def DEFAULT_PROGRESS_TEMPLATE : Str :=
  str "# PROGRESS\n\nDecision log and audit trail for this longrun session.\n\n## Entries\n"

/-- Source constant `FALLBACK_UPSTREAM_AGENTS` (lines 71-76). -/
def FALLBACK_UPSTREAM_AGENTS : Str :=
  str "# Global Agent Rules\n\n## Language\n\nDefault to Chinese in user-facing replies unless the user explicitly requests another language.\n"

/-- Source constant `SKILL_INTEGRATION_MARK_START` (line 78). -/
def SKILL_INTEGRATION_MARK_START : Str := str "<!-- TM-INTEGRATION-START -->"

/-- Source constant `SKILL_INTEGRATION_MARK_END` (line 79). -/
def SKILL_INTEGRATION_MARK_END : Str := str "<!-- TM-INTEGRATION-END -->"

/-- Source constant `SKILL_INTEGRATION_ADDENDUM` (lines 80-98). -/
def SKILL_INTEGRATION_ADDENDUM : Str :=
  SKILL_INTEGRATION_MARK_START ++
  str "\n## Taskmaster Integration Addendum\n\nThis addendum defines how this upstream skill is integrated with Task Master CLI:\n\n1. Task source of truth is Taskmaster tasks data.\n2. Execute exactly one Taskmaster task per `codex exec` run.\n3. Load order for prompt context:\n   - project AGENTS.md/agent.md\n   - .codex/skills/taskmaster-longrun/AGENTS.md\n   - .codex/skills/taskmaster-longrun/SKILL.md\n4. Runtime artifacts are managed by the runner:\n   - LITE mode: project-root TODO.csv\n   - FULL mode: .codex-tasks/taskmaster-longrun/\x7bSPEC.md,TODO.csv,PROGRESS.md\x7d\n5. Model output may update CSV/PROGRESS artifacts, but must not mutate Taskmaster status.\n6. Runner is the only status writer and parses machine-readable result:\n   - success => done\n   - retry exhausted => blocked\n" ++
  SKILL_INTEGRATION_MARK_END

/-- The `SPEC.md` template written at lines 733-737. -/
def SPEC_TEMPLATE : Str :=
  str "# SPEC\n\nFrozen goal for this longrun session. It will be refreshed from Taskmaster tasks when run starts.\n"

/-- The `.codex-tasks/.gitignore` contents written at line 843. -/
def GITIGNORE_TEMPLATE : Str := str "*\n!.gitignore\n"

/-- Hook-handling mode (`'append' | 'skip' | 'fail'`). -/
inductive AgentsHookMode where
  | append
  | skip
  | fail
deriving DecidableEq, Repr

/-- How `initAssets` classified a touched file. -/
inductive InitAction where
  | created
  | updated
  | skipped
deriving DecidableEq, Repr

/-- Embedding of `ensureAgentsHook` (lines 645-679) as a state transformer on
the agent-context file (`none` = file missing). Returns the resulting file
state and either the classification or the thrown error message; a thrown
error leaves the file untouched. -/
def ensureAgentsHook (file : Option Str) (relPath : Str) (mode : AgentsHookMode) :
    Option Str × Except Str InitAction :=
  match file with
  | none => (some (agentsHookBlock ++ ['\n']), .ok .created)
  | some content =>
    let hasStartMark := containsSub content AGENTS_MARK_START
    let hasEndMark := containsSub content AGENTS_MARK_END
    if hasStartMark && hasEndMark then (some content, .ok .skipped)
    else if hasStartMark != hasEndMark then
      (some content, .error (str "Invalid AGENTS hook markers in " ++ relPath))
    else
      match mode with
      | .skip => (some content, .ok .skipped)
      | .fail =>
        (some content,
         .error (str "AGENTS hook missing in " ++ relPath ++
           str ". Re-run with agentsMode=append to auto-insert."))
      | .append =>
        (some (trimEndCL content ++ str "\n\n" ++ agentsHookBlock ++ ['\n']), .ok .updated)

/-- Embedding of `hasYamlFrontmatter` (lines 753-755): the regex test
`/^---\s*\n[\s\S]*?\n---\s*\n?/.test(content)` holds iff the content starts
with `---` followed by a whitespace run containing a newline, with `\n---`
occurring somewhere after that newline (the trailing `\s*\n?` can always
match empty). -/
def hasYamlFrontmatter (content : Str) : Bool :=
  startsWithCL content (str "---") &&
    (let afterDashes := content.drop 3
     match findSub ['\n'] (afterDashes.takeWhile isJsWs) with
     | none => false
     | some i => containsSub (afterDashes.drop (i + 1)) (str "\n---"))

/-- Embedding of `looksLikeUpstreamTaskmasterSkill` (lines 757-763). -/
def looksLikeUpstreamTaskmasterSkill (content : Str) : Bool :=
  hasYamlFrontmatter content &&
  containsSub content (str "name: taskmaster") &&
  containsSub content (str "Taskmaster — Unified Task Protocol")

/-- Embedding of `hasSkillIntegrationAddon` (lines 765-770). -/
def hasSkillIntegrationAddon (content : Str) : Bool :=
  containsSub content SKILL_INTEGRATION_MARK_START &&
  containsSub content SKILL_INTEGRATION_MARK_END

/-- Embedding of `removeMarkedBlock` (lines 781-797). -/
def removeMarkedBlock (content startM endM : Str) : Str :=
  match findSub startM content, findSub endM content with
  | some startIndex, some endIndex =>
    if endIndex < startIndex then content
    else
      let blockEnd := endIndex + endM.length
      let prefixPart := trimEndCL (content.take startIndex)
      let suffixPart := dropLeadWs (content.drop blockEnd)
      if prefixPart.isEmpty then suffixPart
      else if suffixPart.isEmpty then prefixPart ++ ['\n']
      else prefixPart ++ str "\n\n" ++ suffixPart
  | _, _ => content

/-- Embedding of `mergeSkillWithIntegrationAddon` (lines 772-779). -/
def mergeSkillWithIntegrationAddon (content : Str) : Str :=
  let withoutAddon :=
    removeMarkedBlock content SKILL_INTEGRATION_MARK_START SKILL_INTEGRATION_MARK_END
  trimEndCL withoutAddon ++ str "\n\n" ++ SKILL_INTEGRATION_ADDENDUM ++ ['\n']

/-- Embedding of `looksLikeUpstreamAgents` (lines 799-801). -/
def looksLikeUpstreamAgents (content : Str) : Bool :=
  containsSub content (str "# Global Agent Rules")

/-- Embedding of `ensureSkillTemplate` (lines 681-705). The remote template is
the deterministic fallback `DEFAULT_SKILL_TEMPLATE`, the value
`loadRemoteTemplate` returns when remote fetching is disabled or fails
(lines 817-836); an existing but empty file is falsy in JS, hence `created`. -/
def ensureSkillTemplate (file : Option Str) : Option Str × InitAction :=
  match file with
  | none => (some (mergeSkillWithIntegrationAddon DEFAULT_SKILL_TEMPLATE), .created)
  | some c =>
    if c.isEmpty then (some (mergeSkillWithIntegrationAddon DEFAULT_SKILL_TEMPLATE), .created)
    else if looksLikeUpstreamTaskmasterSkill c && hasSkillIntegrationAddon c then
      (some c, .skipped)
    else (some (mergeSkillWithIntegrationAddon DEFAULT_SKILL_TEMPLATE), .updated)

/-- Embedding of `ensureUpstreamAgentsTemplate` (lines 707-726), with the
remote template modelled by its deterministic fallback
`FALLBACK_UPSTREAM_AGENTS` (lines 817-836). -/
def ensureUpstreamAgentsTemplate (file : Option Str) : Option Str × InitAction :=
  match file with
  | none => (some FALLBACK_UPSTREAM_AGENTS, .created)
  | some c =>
    if !c.isEmpty && looksLikeUpstreamAgents c then (some c, .skipped)
    else (some FALLBACK_UPSTREAM_AGENTS, if c.isEmpty then .created else .updated)

/-- Embedding of `ensureSpecTemplate` (lines 728-739): existence check only. -/
def ensureSpecTemplate (file : Option Str) : Option Str × InitAction :=
  match file with
  | some c => (some c, .skipped)
  | none => (some SPEC_TEMPLATE, .created)

/-- Embedding of `ensureProgressTemplate` (lines 741-751). -/
def ensureProgressTemplate (file : Option Str) : Option Str × InitAction :=
  match file with
  | some c => (some c, .skipped)
  | none => (some DEFAULT_PROGRESS_TEMPLATE, .created)

/-- Embedding of `ensureCodexTasksGitignore` (lines 838-853): create the file,
or append the `*` and `!.gitignore` entries each only when the original
content lacks them. -/
def ensureCodexTasksGitignore (file : Option Str) : Option Str :=
  match file with
  | none => some GITIGNORE_TEMPLATE
  | some content =>
    let c1 := if !containsSub content (str "*") then content ++ str "\n*\n" else content
    let c2 := if !containsSub content (str "!.gitignore") then c1 ++ str "!.gitignore\n" else c1
    some c2

/-- The run mode after `resolveMode` (`'lite' | 'full'`). -/
inductive RunMode where
  | lite
  | full
deriving DecidableEq, Repr

/-- The files touched by `initAssets`, keyed by their resolved paths
(`none` = file missing). -/
structure AssetsFs where
  agents : Option Str
  skillAgents : Option Str
  skill : Option Str
  gitignore : Option Str
  specFile : Option Str
  progressFile : Option Str
deriving DecidableEq, Repr

/-- Embedding of `initAssets` (lines 197-224) on the touched files, in source
order: session gitignore, agent-context hook, skill-side agent template,
skill template, then (full mode only) the spec and progress templates. A
thrown hook error aborts the remaining steps but keeps the effects already
performed. -/
def initAssets (mode : RunMode) (agentsMode : AgentsHookMode) (relAgents : Str)
    (fs : AssetsFs) : AssetsFs × Except Str Unit :=
  let fs1 := { fs with gitignore := ensureCodexTasksGitignore fs.gitignore }
  match ensureAgentsHook fs1.agents relAgents agentsMode with
  | (agents', .error e) => ({ fs1 with agents := agents' }, .error e)
  | (agents', .ok _) =>
    let fs2 := { fs1 with agents := agents' }
    let fs3 := { fs2 with skillAgents := (ensureUpstreamAgentsTemplate fs2.skillAgents).1 }
    let fs4 := { fs3 with skill := (ensureSkillTemplate fs3.skill).1 }
    match mode with
    | .full =>
      let fs5 := { fs4 with specFile := (ensureSpecTemplate fs4.specFile).1 }
      let fs6 := { fs5 with progressFile := (ensureProgressTemplate fs5.progressFile).1 }
      (fs6, .ok ())
    | .lite => (fs4, .ok ())

/-- The clean project: none of the touched files exist yet. -/
def cleanAssetsFs : AssetsFs :=
  { agents := none, skillAgents := none, skill := none,
    gitignore := none, specFile := none, progressFile := none }

/- ===== Plan (CSV) projection ===== -/

/-- Row statuses of the plan CSV (`'TODO' | 'IN_PROGRESS' | 'DONE' | 'FAILED'`). -/
inductive CsvStatus where
  | todo
  | inProgress
  | done
  | failed
deriving DecidableEq, Repr

/-- Embedding of the source interface `CsvRow`. -/
structure CsvRow where
  taskId : Str
  title : Str
  status : CsvStatus
  acceptanceCriteria : Str
  validationCommand : Str
  completedAt : Str
  retryCount : Nat
  notes : Str
  dependencies : List Str
deriving DecidableEq, Repr

/-- JS `value.replace(/\r?\n/g, ' ')`: each `\n` or `\r\n` becomes one space;
a lone `\r` is kept. -/
def replaceNewlines : Str → Str
  | [] => []
  | '\r' :: '\n' :: rest => ' ' :: replaceNewlines rest
  | '\n' :: rest => ' ' :: replaceNewlines rest
  | c :: rest => c :: replaceNewlines rest

/-- JS `normalized.replace(/"/g, '""')`. -/
def doubleQuotes : Str → Str
  | [] => []
  | '"' :: rest => '"' :: '"' :: doubleQuotes rest
  | c :: rest => c :: doubleQuotes rest

/-- Embedding of `toCsvCell` (lines 112-118): replace newlines with spaces,
trim, then quote (doubling embedded quotes) iff the normalized text contains
a double quote or a comma. -/
def toCsvCell (value : Str) : Str :=
  let normalized := trimCL (replaceNewlines value)
  if normalized.contains '"' || normalized.contains ',' then
    '"' :: (doubleQuotes normalized ++ ['"'])
  else normalized

/-- Render a `CsvStatus` as in the source union type. -/
def csvStatusText : CsvStatus → Str
  | .todo => str "TODO"
  | .inProgress => str "IN_PROGRESS"
  | .done => str "DONE"
  | .failed => str "FAILED"

/-- Embedding of `mapStatusLite` (lines 951-953). -/
def mapStatusLite (status : CsvStatus) : Str :=
  if status = .done then str "DONE" else str "TODO"

/-- The cell strings of one full-schema plan row, in column order
(lines 922-933); numeric cells are rendered in decimal as JS does inside the
template join. -/
def renderCsvCells (idx : Nat) (row : CsvRow) : List Str :=
  [natDigits (idx + 1),
   toCsvCell (('[' :: row.taskId ++ str "] ") ++ row.title),
   csvStatusText row.status,
   toCsvCell row.acceptanceCriteria,
   toCsvCell row.validationCommand,
   toCsvCell row.completedAt,
   natDigits row.retryCount,
   toCsvCell row.notes]

/-- The cell strings of one lite-schema plan row (lines 939-947). -/
def renderLiteCsvCells (idx : Nat) (row : CsvRow) : List Str :=
  [natDigits (idx + 1),
   toCsvCell (('[' :: row.taskId ++ str "] ") ++ row.title),
   mapStatusLite row.status,
   toCsvCell row.completedAt,
   toCsvCell row.notes]

/-- Header of the full plan CSV (line 921). -/
def CSV_HEADER : Str :=
  str "id,task,status,acceptance_criteria,validation_command,completed_at,retry_count,notes"

/-- Header of the lite plan CSV (line 938). -/
def CSV_HEADER_LITE : Str := str "id,task,status,completed_at,notes"

/-- Embedding of `renderCsv` (lines 920-935). -/
def renderCsv (rows : List CsvRow) : Str :=
  let lines := rows.enum.map (fun p => joinSep [','] (renderCsvCells p.1 p.2))
  CSV_HEADER ++ ['\n'] ++ joinSep ['\n'] lines ++ ['\n']

/-- Embedding of `renderLiteCsv` (lines 937-949). -/
def renderLiteCsv (rows : List CsvRow) : Str :=
  let lines := rows.enum.map (fun p => joinSep [','] (renderLiteCsvCells p.1 p.2))
  CSV_HEADER_LITE ++ ['\n'] ++ joinSep ['\n'] lines ++ ['\n']

/- ===== Helper lemmas ===== -/

theorem findSome_isSome_iff {α β : Type} (f : α → Option β) (l : List α) :
    (l.findSome? f).isSome ↔ ∃ x ∈ l, (f x).isSome := by
  induction l with
  | nil => simp [List.findSome?]
  | cons a l ih =>
    cases h : f a with
    | none => simp [List.findSome?_cons, h, ih]
    | some b => simp [List.findSome?_cons, h]

theorem findSome_eq_some_split {α β : Type} (f : α → Option β) (l : List α) (r : β)
    (h : l.findSome? f = some r) :
    ∃ pre x post, l = pre ++ x :: post ∧ f x = some r ∧ ∀ y ∈ pre, f y = none := by
  induction l with
  | nil => simp [List.findSome?] at h
  | cons a l ih =>
    cases ha : f a with
    | some b =>
      rw [List.findSome?_cons, ha] at h
      exact ⟨[], a, l, rfl, by simpa [ha] using h, by simp⟩
    | none =>
      rw [List.findSome?_cons, ha] at h
      obtain ⟨pre, x, post, hl, hx, hpre⟩ := ih h
      refine ⟨a :: pre, x, post, by simp [hl], hx, ?_⟩
      intro y hy
      rcases List.mem_cons.mp hy with rfl | hy
      · exact ha
      · exact hpre y hy

/- ===== C1 ===== -/

/-- C1 counterexample. The claim reads the sentinel marker as the literal
`RESULT:`, but the code scans for `RESULT_PREFIX = 'TM_RESULT:'`: a buffer
whose only line carries `RESULT:` followed by a well-formed payload satisfies
the claim's existence condition, yet `extractTaskResult` returns null. -/
theorem extract_requires_tm_result_marker :
    (parseResultLine (str "RESULT:")
        (str "RESULT: \x7b\"status\":\"done\"\x7d")).isSome = true ∧
    extractTaskResult (str "RESULT: \x7b\"status\":\"done\"\x7d") = none := by
  constructor
  · decide
  · decide

/-- C1 (amended: the sentinel marker is `TM_RESULT:`, not `RESULT:`). For
every output buffer, `extractTaskResult` returns a non-null result iff some
line contains `TM_RESULT:` followed by a parseable JSON object whose
lowercased `status` is `done` or `failed`; scanning from the last line to the
first, the returned result comes from the last such valid line (every line
after it fails to parse). -/
theorem extractTaskResult_last_valid_line (output : Str) :
    ((extractTaskResult output).isSome ↔
      ∃ line ∈ splitLinesJs output, (parseResultLine RESULT_MARK line).isSome) ∧
    (∀ r, extractTaskResult output = some r →
      ∃ pre line post, splitLinesJs output = pre ++ line :: post ∧
        parseResultLine RESULT_MARK line = some r ∧
        ∀ l ∈ post, parseResultLine RESULT_MARK l = none) := by
  constructor
  · rw [extractTaskResult, findSome_isSome_iff]
    constructor
    · rintro ⟨x, hx, hsome⟩
      exact ⟨x, List.mem_reverse.mp hx, hsome⟩
    · rintro ⟨x, hx, hsome⟩
      exact ⟨x, List.mem_reverse.mpr hx, hsome⟩
  · intro r hr
    rw [extractTaskResult] at hr
    obtain ⟨pre, x, post, hl, hx, hpre⟩ := findSome_eq_some_split _ _ _ hr
    refine ⟨post.reverse, x, pre.reverse, ?_, hx, ?_⟩
    · have : (splitLinesJs output).reverse.reverse = (pre ++ x :: post).reverse := by
        rw [hl]
      simpa using this
    · intro l hlmem
      exact hpre l (List.mem_reverse.mp hlmem)

/-- C1 amended witness: a concrete buffer with a valid sentinel line followed
by a noise line. -/
theorem extractTaskResult_last_valid_line_witness :
    ∃ pre line post,
      splitLinesJs (str "TM_RESULT: \x7b\"status\":\"done\"\x7d\nnoise")
        = pre ++ line :: post ∧
      parseResultLine RESULT_MARK line
        = some { status := .done, validation := .unknown, summary := [],
                 raw := str "\x7b\"status\":\"done\"\x7d" } ∧
      ∀ l ∈ post, parseResultLine RESULT_MARK l = none :=
  (extractTaskResult_last_valid_line
      (str "TM_RESULT: \x7b\"status\":\"done\"\x7d\nnoise")).2
    { status := .done, validation := .unknown, summary := [],
      raw := str "\x7b\"status\":\"done\"\x7d" }
    (by decide)

/- ===== C2 ===== -/

/-- C2 counterexample. The claim says the checkpoint write is atomic via a
temp-file-then-rename; the code's `saveCheckpoint` performs a single direct
`writeFile` and never renames: on a concrete checkpoint its file-system
trace contains no rename and is exactly one write. -/
theorem saveCheckpoint_no_rename :
    ((saveCheckpoint (str "2026-01-01T00:00:00.000Z") (str "checkpoint.json")
        (freshCheckpoint (str "t0"))).2.any FsOp.isRename = false) ∧
    (saveCheckpoint (str "2026-01-01T00:00:00.000Z") (str "checkpoint.json")
        (freshCheckpoint (str "t0"))).2
      = [FsOp.write (str "checkpoint.json")
          (stringifyCheckpoint (freshCheckpoint (str "2026-01-01T00:00:00.000Z")))] := by
  constructor
  · decide
  · decide

/-- C2 (amended: no temp file and no rename). For every checkpoint state,
`saveCheckpoint` updates the timestamp, serializes with stable two-space
indentation (`JSON.stringify(_, null, 2)`), and performs exactly one direct
write of that serialization to the checkpoint file — it does not write a
temporary file first, nor rename. -/
theorem saveCheckpoint_direct_write (now file : Str) (checkpoint : CheckpointState) :
    saveCheckpoint now file checkpoint
      = ({ checkpoint with updatedAt := now },
         [FsOp.write file (stringifyCheckpoint { checkpoint with updatedAt := now })]) := rfl

/- ===== C4 ===== -/

/-- C4. The outcome resolver satisfies the spec's decision table: a null
parsed result with a timeout is a failure regardless of exit code; a null
parsed result without timeout and exit code 0 is a success; a parsed result
with status `done` is a success exactly when its validation is not `fail`. -/
theorem resolveExecutionOutcome_decision_table (r : CodexExecResult) :
    (r.parsedResult = none → r.timedOut = true →
      (resolveExecutionOutcome r).success = false) ∧
    (r.parsedResult = none → r.timedOut = false → r.exitCode = some 0 →
      (resolveExecutionOutcome r).success = true) ∧
    (∀ p, r.parsedResult = some p → p.status = .done → p.validation = .fail →
      (resolveExecutionOutcome r).success = false) ∧
    (∀ p, r.parsedResult = some p → p.status = .done → p.validation ≠ .fail →
      (resolveExecutionOutcome r).success = true) := by
  refine ⟨?_, ?_, ?_, ?_⟩
  · intro hp ht
    simp [resolveExecutionOutcome, hp, ht]
  · intro hp ht he
    simp [resolveExecutionOutcome, hp, ht, he]
  · intro p hp hs hv
    simp [resolveExecutionOutcome, hp, hs, hv]
  · intro p hp hs hv
    simp [resolveExecutionOutcome, hp, hs, hv]

/-- C4 witness: the timeout row of the decision table at a concrete
execution result with a non-zero-looking exit code. -/
theorem resolveExecutionOutcome_decision_table_witness :
    (resolveExecutionOutcome
      { exitCode := some 0, signal := none, durationMs := 10, logFile := [],
        timedOut := true, timeoutMs := some 5000, timeoutKind := some .hard,
        parsedResult := none }).success = false :=
  (resolveExecutionOutcome_decision_table
    { exitCode := some 0, signal := none, durationMs := 10, logFile := [],
      timedOut := true, timeoutMs := some 5000, timeoutKind := some .hard,
      parsedResult := none }).1 rfl rfl

theorem mem_pushUnique (l : List Str) (v a : Str) :
    a ∈ pushUnique l v ↔ a ∈ l ∨ a = v := by
  by_cases h : l.contains v
  · have hv : v ∈ l := by
      simpa using h
    simp only [pushUnique, h, if_pos]
    constructor
    · exact Or.inl
    · rintro (hm | rfl)
      · exact hm
      · exact hv
  · simp only [pushUnique, h, if_neg, Bool.not_eq_true]
    simp

theorem recordGet_set_self (m : List (Str × Nat)) (k : Str) (v : Nat) :
    recordGet (recordSet m k v) k = some v := by
  induction m with
  | nil => simp [recordSet, recordGet]
  | cons p rest ih =>
    by_cases h : p.1 = k
    · simp [recordSet, recordGet, h]
    · simp [recordSet, recordGet, h, ih]

theorem recordGet_set_ne (m : List (Str × Nat)) (k k' : Str) (v : Nat) (h : k' ≠ k) :
    recordGet (recordSet m k v) k' = recordGet m k' := by
  have h' : ¬(k = k') := fun hh => h hh.symm
  induction m with
  | nil => simp [recordSet, recordGet, h']
  | cons p rest ih =>
    by_cases hp : p.1 = k
    · subst hp
      simp [recordSet, recordGet, h']
    · by_cases hp' : p.1 = k'
      · simp [recordSet, recordGet, hp, hp', h, ih]
      · simp [recordSet, recordGet, hp, hp', ih]

/-- Projections of the success branch of one loop iteration. -/
theorem runStep_success (mr : Nat) (st : RunState) (inp : StepInput)
    (hs : (resolveExecutionOutcome inp.exec).success = true) :
    (runStep mr st inp).store
      = updateStatus (updateStatus st.store inp.task.id .inProgress) inp.task.id .done ∧
    (runStep mr st inp).checkpoint.doneTaskIds
      = pushUnique st.checkpoint.doneTaskIds inp.task.id ∧
    (runStep mr st inp).checkpoint.blockedTaskIds
      = st.checkpoint.blockedTaskIds.filter (fun id => id ≠ inp.task.id) ∧
    (runStep mr st inp).checkpoint.attempts
      = recordSet st.checkpoint.attempts inp.task.id
          ((recordGet st.checkpoint.attempts inp.task.id).getD 0 + 1) ∧
    (runStep mr st inp).ledger
      = st.ledger ++
        [{ timestamp := inp.now, taskId := inp.task.id, title := inp.task.title,
           attempt := (recordGet st.checkpoint.attempts inp.task.id).getD 0 + 1,
           status := .done, exitCode := inp.exec.exitCode,
           durationMs := inp.exec.durationMs, logFile := inp.exec.logFile,
           notes := (resolveExecutionOutcome inp.exec).note }] ∧
    (runStep mr st inp).totalRuns = st.totalRuns + 1 := by
  simp [runStep, hs]

/-- Projections of the retries-exhausted failure branch of one loop
iteration. -/
theorem runStep_failBlocked (mr : Nat) (st : RunState) (inp : StepInput)
    (hs : (resolveExecutionOutcome inp.exec).success = false)
    (hl : (recordGet st.checkpoint.attempts inp.task.id).getD 0 + 1 > mr) :
    (runStep mr st inp).store
      = updateStatus (updateStatus st.store inp.task.id .inProgress) inp.task.id .blocked ∧
    (runStep mr st inp).checkpoint.doneTaskIds = st.checkpoint.doneTaskIds ∧
    (runStep mr st inp).checkpoint.blockedTaskIds
      = pushUnique st.checkpoint.blockedTaskIds inp.task.id ∧
    (runStep mr st inp).checkpoint.attempts
      = recordSet st.checkpoint.attempts inp.task.id
          ((recordGet st.checkpoint.attempts inp.task.id).getD 0 + 1) ∧
    (runStep mr st inp).ledger
      = st.ledger ++
        [{ timestamp := inp.now, taskId := inp.task.id, title := inp.task.title,
           attempt := (recordGet st.checkpoint.attempts inp.task.id).getD 0 + 1,
           status := .blocked, exitCode := inp.exec.exitCode,
           durationMs := inp.exec.durationMs, logFile := inp.exec.logFile,
           notes := combineNotes [(resolveExecutionOutcome inp.exec).note,
             some (str "max retries reached: " ++ natDigits mr)] }] ∧
    (runStep mr st inp).totalRuns = st.totalRuns + 1 := by
  simp [runStep, hs, hl]

/-- Projections of the will-retry failure branch of one loop iteration. -/
theorem runStep_failRetry (mr : Nat) (st : RunState) (inp : StepInput)
    (hs : (resolveExecutionOutcome inp.exec).success = false)
    (hl : ¬((recordGet st.checkpoint.attempts inp.task.id).getD 0 + 1 > mr)) :
    (runStep mr st inp).store
      = updateStatus (updateStatus st.store inp.task.id .inProgress) inp.task.id .pending ∧
    (runStep mr st inp).checkpoint.doneTaskIds = st.checkpoint.doneTaskIds ∧
    (runStep mr st inp).checkpoint.blockedTaskIds = st.checkpoint.blockedTaskIds ∧
    (runStep mr st inp).checkpoint.attempts
      = recordSet st.checkpoint.attempts inp.task.id
          ((recordGet st.checkpoint.attempts inp.task.id).getD 0 + 1) ∧
    (runStep mr st inp).ledger
      = st.ledger ++
        [{ timestamp := inp.now, taskId := inp.task.id, title := inp.task.title,
           attempt := (recordGet st.checkpoint.attempts inp.task.id).getD 0 + 1,
           status := .failed, exitCode := inp.exec.exitCode,
           durationMs := inp.exec.durationMs, logFile := inp.exec.logFile,
           notes := combineNotes [(resolveExecutionOutcome inp.exec).note,
             some (str "will retry")] }] ∧
    (runStep mr st inp).totalRuns = st.totalRuns + 1 := by
  simp [runStep, hs, hl]

theorem runStep_attempts (mr : Nat) (st : RunState) (inp : StepInput) :
    (runStep mr st inp).checkpoint.attempts
      = recordSet st.checkpoint.attempts inp.task.id
          ((recordGet st.checkpoint.attempts inp.task.id).getD 0 + 1) := by
  by_cases hs : (resolveExecutionOutcome inp.exec).success
  · exact (runStep_success mr st inp hs).2.2.2.1
  · have hs' : (resolveExecutionOutcome inp.exec).success = false := by simpa using hs
    by_cases hl : (recordGet st.checkpoint.attempts inp.task.id).getD 0 + 1 > mr
    · exact (runStep_failBlocked mr st inp hs' hl).2.2.2.1
    · exact (runStep_failRetry mr st inp hs' hl).2.2.2.1

theorem attemptsOf_runStep_self (mr : Nat) (st : RunState) (inp : StepInput) :
    attemptsOf (runStep mr st inp) inp.task.id = attemptsOf st inp.task.id + 1 := by
  rw [attemptsOf, runStep_attempts, recordGet_set_self]
  rfl

theorem attemptsOf_runStep_ne (mr : Nat) (st : RunState) (inp : StepInput) (id : Str)
    (h : id ≠ inp.task.id) :
    attemptsOf (runStep mr st inp) id = attemptsOf st id := by
  rw [attemptsOf, runStep_attempts, recordGet_set_ne _ _ _ _ h]
  rfl

theorem runStep_totalRuns (mr : Nat) (st : RunState) (inp : StepInput) :
    (runStep mr st inp).totalRuns = st.totalRuns + 1 := by
  by_cases hs : (resolveExecutionOutcome inp.exec).success
  · exact (runStep_success mr st inp hs).2.2.2.2.2
  · have hs' : (resolveExecutionOutcome inp.exec).success = false := by simpa using hs
    by_cases hl : (recordGet st.checkpoint.attempts inp.task.id).getD 0 + 1 > mr
    · exact (runStep_failBlocked mr st inp hs' hl).2.2.2.2.2
    · exact (runStep_failRetry mr st inp hs' hl).2.2.2.2.2

/-- The auxiliary invariant carried through reachability: the checkpoint's
done and blocked id sets are disjoint, every id in them has made at least one
attempt, and ids recorded done are persisted as `done` in the task store. -/
theorem reach_invariant (mr : Nat) (st : RunState) (h : Reach mr st) :
    (∀ id ∈ st.checkpoint.doneTaskIds, id ∉ st.checkpoint.blockedTaskIds) ∧
    (∀ id, id ∈ st.checkpoint.doneTaskIds ∨ id ∈ st.checkpoint.blockedTaskIds →
      1 ≤ attemptsOf st id) ∧
    (∀ id ∈ st.checkpoint.doneTaskIds, st.store id = .done) := by
  induction h with
  | init now store => simp [freshCheckpoint, attemptsOf]
  | @step st inp hreach helig ih =>
    obtain ⟨ih1, ih2, ih3⟩ := ih
    have hid0 : inp.task.id ∉ st.checkpoint.doneTaskIds := by
      intro hmem
      have := ih3 _ hmem
      rw [helig] at this
      exact absurd this (by simp)
    have hatt : ∀ id, id ∈ st.checkpoint.doneTaskIds ∨ id ∈ st.checkpoint.blockedTaskIds ∨
        id = inp.task.id → 1 ≤ attemptsOf (runStep mr st inp) id := by
      intro id hmem
      by_cases hid : id = inp.task.id
      · rw [hid, attemptsOf_runStep_self]
        exact Nat.le_add_left 1 _
      · rw [attemptsOf_runStep_ne mr st inp id hid]
        rcases hmem with hm | hm | hm
        · exact ih2 id (Or.inl hm)
        · exact ih2 id (Or.inr hm)
        · exact absurd hm hid
    by_cases hs : (resolveExecutionOutcome inp.exec).success
    · -- success branch: add to done, remove from blocked
      obtain ⟨hst, hd, hb, -, -, -⟩ := runStep_success mr st inp hs
      refine ⟨?_, ?_, ?_⟩
      · intro id hdone hblocked
        rw [hd] at hdone
        rw [hb] at hblocked
        simp only [List.mem_filter, decide_eq_true_eq] at hblocked
        rcases (mem_pushUnique _ _ _).mp hdone with hm | rfl
        · exact ih1 id hm hblocked.1
        · exact hblocked.2 rfl
      · intro id hmem
        refine hatt id ?_
        rw [hd, hb] at hmem
        rcases hmem with hm | hm
        · rcases (mem_pushUnique _ _ _).mp hm with hm' | rfl
          · exact Or.inl hm'
          · exact Or.inr (Or.inr rfl)
        · simp only [List.mem_filter] at hm
          exact Or.inr (Or.inl hm.1)
      · intro id hdone
        rw [hd] at hdone
        rw [hst]
        simp only [updateStatus]
        by_cases hid : id = inp.task.id
        · simp [hid]
        · simp only [hid, if_neg, reduceIte]
          rcases (mem_pushUnique _ _ _).mp hdone with hm | hm
          · exact ih3 id hm
          · exact absurd hm hid
    · -- failure branch
      have hs' : (resolveExecutionOutcome inp.exec).success = false := by
        simpa using hs
      by_cases hl : (recordGet st.checkpoint.attempts inp.task.id).getD 0 + 1 > mr
      · -- retries exhausted: add to blocked
        obtain ⟨hst, hd, hb, -, -, -⟩ := runStep_failBlocked mr st inp hs' hl
        refine ⟨?_, ?_, ?_⟩
        · intro id hdone hblocked
          rw [hd] at hdone
          rw [hb] at hblocked
          rcases (mem_pushUnique _ _ _).mp hblocked with hm | rfl
          · exact ih1 id hdone hm
          · exact hid0 hdone
        · intro id hmem
          refine hatt id ?_
          rw [hd, hb] at hmem
          rcases hmem with hm | hm
          · exact Or.inl hm
          · rcases (mem_pushUnique _ _ _).mp hm with hm' | rfl
            · exact Or.inr (Or.inl hm')
            · exact Or.inr (Or.inr rfl)
        · intro id hdone
          rw [hd] at hdone
          rw [hst]
          simp only [updateStatus]
          have hid : id ≠ inp.task.id := fun hh => hid0 (hh ▸ hdone)
          simp only [hid, if_neg, reduceIte]
          exact ih3 id hdone
      · -- will retry: sets unchanged
        obtain ⟨hst, hd, hb, -, -, -⟩ := runStep_failRetry mr st inp hs' hl
        refine ⟨?_, ?_, ?_⟩
        · intro id hdone hblocked
          rw [hd] at hdone
          rw [hb] at hblocked
          exact ih1 id hdone hblocked
        · intro id hmem
          rw [hd, hb] at hmem
          refine hatt id ?_
          rcases hmem with hm | hm
          · exact Or.inl hm
          · exact Or.inr (Or.inl hm)
        · intro id hdone
          rw [hd] at hdone
          rw [hst]
          simp only [updateStatus]
          have hid : id ≠ inp.task.id := fun hh => hid0 (hh ▸ hdone)
          simp only [hid, if_neg, reduceIte]
          exact ih3 id hdone

/- ===== C3 ===== -/

/-- C3. Every checkpoint state reachable by the runner loop keeps
`doneTaskIds` and `blockedTaskIds` disjoint; every transition of a task id
increases its attempt count by exactly one; and every id in the done or
blocked set has an attempt count of at least 1. -/
theorem runner_checkpoint_invariants (mr : Nat) :
    (∀ st, Reach mr st →
      (∀ id ∈ st.checkpoint.doneTaskIds, id ∉ st.checkpoint.blockedTaskIds) ∧
      (∀ id, id ∈ st.checkpoint.doneTaskIds ∨ id ∈ st.checkpoint.blockedTaskIds →
        1 ≤ attemptsOf st id)) ∧
    (∀ st inp, attemptsOf (runStep mr st inp) inp.task.id
        = attemptsOf st inp.task.id + 1) := by
  constructor
  · intro st h
    obtain ⟨h1, h2, -⟩ := reach_invariant mr st h
    exact ⟨h1, h2⟩
  · intro st inp
    exact attemptsOf_runStep_self mr st inp

/-- C3 witness: after one successful transition of task `"1"` from the fresh
state, the invariants hold concretely. -/
theorem runner_checkpoint_invariants_witness :
    (str "1") ∉ (runStep 3
      { store := fun _ => .pending, checkpoint := freshCheckpoint (str "t0"),
        ledger := [], totalRuns := 0 }
      { task := { id := str "1", title := str "demo" },
        exec := { exitCode := some 0, signal := none, durationMs := 5, logFile := [],
                  timedOut := false, timeoutMs := none, timeoutKind := none,
                  parsedResult := none },
        now := str "t1" }).checkpoint.blockedTaskIds ∧
    attemptsOf (runStep 3
      { store := fun _ => .pending, checkpoint := freshCheckpoint (str "t0"),
        ledger := [], totalRuns := 0 }
      { task := { id := str "1", title := str "demo" },
        exec := { exitCode := some 0, signal := none, durationMs := 5, logFile := [],
                  timedOut := false, timeoutMs := none, timeoutKind := none,
                  parsedResult := none },
        now := str "t1" }) (str "1") = 1 := by
  constructor
  · exact (((runner_checkpoint_invariants 3).1 _
      (Reach.step _ (Reach.init (str "t0") (fun _ => .pending)) rfl)).1
      (str "1") (by decide))
  · have h := (runner_checkpoint_invariants 3).2
      { store := fun _ => .pending, checkpoint := freshCheckpoint (str "t0"),
        ledger := [], totalRuns := 0 }
      { task := { id := str "1", title := str "demo" },
        exec := { exitCode := some 0, signal := none, durationMs := 5, logFile := [],
                  timedOut := false, timeoutMs := none, timeoutKind := none,
                  parsedResult := none },
        now := str "t1" }
    rw [h]
    decide

/- ===== C5 ===== -/

/-- Auxiliary bound: from a fresh checkpoint, a pending task has at most
`maxRetries` recorded attempts, and no task ever exceeds `maxRetries + 1`. -/
theorem reach_attempts_bound (mr : Nat) (st : RunState) (h : Reach mr st) :
    ∀ id, attemptsOf st id ≤ mr + 1 ∧ (st.store id = .pending → attemptsOf st id ≤ mr) := by
  induction h with
  | init now store =>
    intro id
    simp [freshCheckpoint, attemptsOf, recordGet]
  | @step st inp hreach helig ih =>
    intro id
    by_cases hid : id = inp.task.id
    · subst hid
      have hbound : attemptsOf st inp.task.id ≤ mr := (ih inp.task.id).2 helig
      rw [attemptsOf_runStep_self]
      refine ⟨Nat.add_le_add_right hbound 1, ?_⟩
      intro hpend
      by_cases hs : (resolveExecutionOutcome inp.exec).success
      · obtain ⟨hst, -, -, -, -, -⟩ := runStep_success mr st inp hs
        rw [hst] at hpend
        simp [updateStatus] at hpend
      · have hs' : (resolveExecutionOutcome inp.exec).success = false := by simpa using hs
        by_cases hl : (recordGet st.checkpoint.attempts inp.task.id).getD 0 + 1 > mr
        · obtain ⟨hst, -, -, -, -, -⟩ := runStep_failBlocked mr st inp hs' hl
          rw [hst] at hpend
          simp [updateStatus] at hpend
        · exact Nat.le_of_not_lt hl
    · rw [attemptsOf_runStep_ne mr st inp id hid]
      refine ⟨(ih id).1, ?_⟩
      intro hpend
      refine (ih id).2 ?_
      have hstf : (runStep mr st inp).store id = st.store id := by
        by_cases hs : (resolveExecutionOutcome inp.exec).success
        · rw [(runStep_success mr st inp hs).1]
          simp [updateStatus, hid]
        · have hs' : (resolveExecutionOutcome inp.exec).success = false := by simpa using hs
          by_cases hl : (recordGet st.checkpoint.attempts inp.task.id).getD 0 + 1 > mr
          · rw [(runStep_failBlocked mr st inp hs' hl).1]
            simp [updateStatus, hid]
          · rw [(runStep_failRetry mr st inp hs' hl).1]
            simp [updateStatus, hid]
      rw [hstf] at hpend
      exact hpend

/-- C5. In a failing iteration the post-increment attempt is compared against
`maxRetries` (default 3, non-negative by construction): above the bound the
task's external status becomes `blocked`, its id joins the blocked set and a
`BLOCKED` ledger entry is appended; otherwise the status returns to `pending`
and a `FAILED` entry is appended. Consequently a task reachable from a fresh
session never accumulates more than `maxRetries + 1` attempts. -/
theorem retry_policy_blocked_after_limit :
    (effectiveMaxRetries none = 3) ∧
    (∀ (mr : Nat) (st : RunState) (inp : StepInput),
      (resolveExecutionOutcome inp.exec).success = false →
      attemptsOf st inp.task.id + 1 > mr →
        ((runStep mr st inp).store inp.task.id = .blocked ∧
         inp.task.id ∈ (runStep mr st inp).checkpoint.blockedTaskIds ∧
         (runStep mr st inp).ledger
           = st.ledger ++
             [{ timestamp := inp.now, taskId := inp.task.id, title := inp.task.title,
                attempt := attemptsOf st inp.task.id + 1,
                status := .blocked, exitCode := inp.exec.exitCode,
                durationMs := inp.exec.durationMs, logFile := inp.exec.logFile,
                notes := combineNotes [(resolveExecutionOutcome inp.exec).note,
                  some (str "max retries reached: " ++ natDigits mr)] }])) ∧
    (∀ (mr : Nat) (st : RunState) (inp : StepInput),
      (resolveExecutionOutcome inp.exec).success = false →
      ¬(attemptsOf st inp.task.id + 1 > mr) →
        ((runStep mr st inp).store inp.task.id = .pending ∧
         (runStep mr st inp).checkpoint.blockedTaskIds = st.checkpoint.blockedTaskIds ∧
         (runStep mr st inp).ledger
           = st.ledger ++
             [{ timestamp := inp.now, taskId := inp.task.id, title := inp.task.title,
                attempt := attemptsOf st inp.task.id + 1,
                status := .failed, exitCode := inp.exec.exitCode,
                durationMs := inp.exec.durationMs, logFile := inp.exec.logFile,
                notes := combineNotes [(resolveExecutionOutcome inp.exec).note,
                  some (str "will retry")] }])) ∧
    (∀ (mr : Nat) (st : RunState), Reach mr st → ∀ id, attemptsOf st id ≤ mr + 1) := by
  refine ⟨rfl, ?_, ?_, ?_⟩
  · intro mr st inp hs hl
    rw [attemptsOf] at hl
    obtain ⟨hst, -, hb, -, hledger, -⟩ := runStep_failBlocked mr st inp hs hl
    refine ⟨?_, ?_, ?_⟩
    · rw [hst]
      simp [updateStatus]
    · rw [hb, mem_pushUnique]
      exact Or.inr rfl
    · rw [hledger, attemptsOf]
  · intro mr st inp hs hl
    rw [attemptsOf] at hl
    obtain ⟨hst, -, hb, -, hledger, -⟩ := runStep_failRetry mr st inp hs hl
    refine ⟨?_, hb, ?_⟩
    · rw [hst]
      simp [updateStatus]
    · rw [hledger, attemptsOf]
  · intro mr st h id
    exact (reach_attempts_bound mr st h id).1

/-- C5 witness: a concrete failing attempt with `maxRetries = 0` blocks the
task immediately and appends a `BLOCKED` entry. -/
theorem retry_policy_blocked_after_limit_witness :
    (runStep 0
      { store := fun _ => .pending, checkpoint := freshCheckpoint (str "t0"),
        ledger := [], totalRuns := 0 }
      { task := { id := str "1", title := str "demo" },
        exec := { exitCode := some 2, signal := none, durationMs := 5, logFile := [],
                  timedOut := false, timeoutMs := none, timeoutKind := none,
                  parsedResult := none },
        now := str "t1" }).store (str "1") = .blocked ∧
    (str "1") ∈ (runStep 0
      { store := fun _ => .pending, checkpoint := freshCheckpoint (str "t0"),
        ledger := [], totalRuns := 0 }
      { task := { id := str "1", title := str "demo" },
        exec := { exitCode := some 2, signal := none, durationMs := 5, logFile := [],
                  timedOut := false, timeoutMs := none, timeoutKind := none,
                  parsedResult := none },
        now := str "t1" }).checkpoint.blockedTaskIds := by
  have h := retry_policy_blocked_after_limit.2.1 0
    { store := fun _ => .pending, checkpoint := freshCheckpoint (str "t0"),
      ledger := [], totalRuns := 0 }
    { task := { id := str "1", title := str "demo" },
      exec := { exitCode := some 2, signal := none, durationMs := 5, logFile := [],
                timedOut := false, timeoutMs := none, timeoutKind := none,
                parsedResult := none },
      now := str "t1" }
    (by decide) (by decide)
  exact ⟨h.1, h.2.1⟩

/- ===== C8 ===== -/

/-- C8. A negative `maxRetries` option is clamped to 0 by
`Math.max(0, maxRetries ?? 3)`, so the run behaves exactly as if
`maxRetries = 0` had been passed, and a failing task is blocked after its
first attempt. -/
theorem negative_maxRetries_clamped (n : Int) (hn : n < 0) :
    (∀ (mt : Option Nat) (cof : Bool) (now : Str) (store : Str → TaskStatus)
        (script : List StepInput),
      runModel { maxRetries := some n, maxTasks := mt, continueOnFailure := cof }
          now store script
        = runModel { maxRetries := some 0, maxTasks := mt, continueOnFailure := cof }
            now store script) ∧
    (∀ (st : RunState) (inp : StepInput),
      recordGet st.checkpoint.attempts inp.task.id = none →
      (resolveExecutionOutcome inp.exec).success = false →
        (runStep (effectiveMaxRetries (some n)) st inp).store inp.task.id = .blocked ∧
        inp.task.id ∈ (runStep (effectiveMaxRetries (some n)) st inp).checkpoint.blockedTaskIds) := by
  have heff : effectiveMaxRetries (some n) = 0 := by
    rw [effectiveMaxRetries]
    simp [Option.getD]
    omega
  constructor
  · intro mt cof now store script
    rw [runModel, runModel, heff]
    rfl
  · intro st inp h0 hs
    have hl : (recordGet st.checkpoint.attempts inp.task.id).getD 0 + 1
        > effectiveMaxRetries (some n) := by
      rw [heff, h0]
      decide
    obtain ⟨hst, -, hb, -, -, -⟩ :=
      runStep_failBlocked (effectiveMaxRetries (some n)) st inp hs hl
    constructor
    · rw [hst]
      simp [updateStatus]
    · rw [hb, mem_pushUnique]
      exact Or.inr rfl

/-- C8 witness at `maxRetries = -1` with a concrete failing first attempt. -/
theorem negative_maxRetries_clamped_witness :
    (runStep (effectiveMaxRetries (some (-1)))
      { store := fun _ => .pending, checkpoint := freshCheckpoint (str "t0"),
        ledger := [], totalRuns := 0 }
      { task := { id := str "7", title := str "t" },
        exec := { exitCode := some 1, signal := none, durationMs := 5, logFile := [],
                  timedOut := false, timeoutMs := none, timeoutKind := none,
                  parsedResult := none },
        now := str "t1" }).store (str "7") = .blocked ∧
    (str "7") ∈ (runStep (effectiveMaxRetries (some (-1)))
      { store := fun _ => .pending, checkpoint := freshCheckpoint (str "t0"),
        ledger := [], totalRuns := 0 }
      { task := { id := str "7", title := str "t" },
        exec := { exitCode := some 1, signal := none, durationMs := 5, logFile := [],
                  timedOut := false, timeoutMs := none, timeoutKind := none,
                  parsedResult := none },
        now := str "t1" }).checkpoint.blockedTaskIds :=
  (negative_maxRetries_clamped (-1) (by decide)).2
    { store := fun _ => .pending, checkpoint := freshCheckpoint (str "t0"),
      ledger := [], totalRuns := 0 }
    { task := { id := str "7", title := str "t" },
      exec := { exitCode := some 1, signal := none, durationMs := 5, logFile := [],
                timedOut := false, timeoutMs := none, timeoutKind := none,
                parsedResult := none },
      now := str "t1" }
    (by decide) (by decide)

/- ===== C9 ===== -/

/-- C9. With `maxTasks = 0` the stop condition `maxTasks && totalRuns >=
maxTasks` is always falsy (JS treats 0 as no limit), the run is identical to
one with no `maxTasks` at all, and (absent an early `continueOnFailure`
return) the loop consumes the entire `getNext` script — it runs until the
task store returns no next task. -/
theorem maxTasks_zero_no_limit :
    (∀ totalRuns, maxTasksReached (some 0) totalRuns = false) ∧
    (∀ (mr : Nat) (cof : Bool) (st : RunState) (script : List StepInput),
      runLoop mr (some 0) cof st script = runLoop mr none cof st script) ∧
    (∀ (mr : Nat) (st : RunState) (script : List StepInput),
      (runLoop mr (some 0) true st script).1.totalRuns
        = st.totalRuns + script.length) := by
  refine ⟨?_, ?_, ?_⟩
  · intro totalRuns
    rfl
  · intro mr cof st script
    induction script generalizing st with
    | nil => rfl
    | cons inp rest ih =>
      simp only [runLoop]
      rw [show maxTasksReached (some 0) st.totalRuns = false from rfl,
        show maxTasksReached none st.totalRuns = false from rfl,
        if_neg Bool.false_ne_true, if_neg Bool.false_ne_true]
      split
      · rfl
      · exact ih (runStep mr st inp)
  · intro mr st script
    induction script generalizing st with
    | nil => rfl
    | cons inp rest ih =>
      simp only [runLoop]
      rw [show maxTasksReached (some 0) st.totalRuns = false from rfl,
        if_neg Bool.false_ne_true, if_neg (by simp), ih (runStep mr st inp),
        runStep_totalRuns]
      simp [List.length_cons]
      omega

/- ===== C6 ===== -/

/-- C6. Asset initialization of the agent-context file: a missing file is
created containing only the hook block; both markers present leaves the file
unchanged; exactly one marker present fails with the corrupt-markers error
regardless of mode, leaving the file unchanged; with neither marker,
`append` appends a blank line and the block, `skip` leaves the file
untouched, and `fail` raises the hook-missing error, leaving the file
untouched. -/
theorem ensureAgentsHook_cases (mode : AgentsHookMode) (relPath content : Str) :
    (ensureAgentsHook none relPath mode
      = (some (agentsHookBlock ++ ['\n']), .ok .created)) ∧
    (containsSub content AGENTS_MARK_START = true →
     containsSub content AGENTS_MARK_END = true →
      ensureAgentsHook (some content) relPath mode = (some content, .ok .skipped)) ∧
    (containsSub content AGENTS_MARK_START ≠ containsSub content AGENTS_MARK_END →
      ensureAgentsHook (some content) relPath mode
        = (some content, .error (str "Invalid AGENTS hook markers in " ++ relPath))) ∧
    (containsSub content AGENTS_MARK_START = false →
     containsSub content AGENTS_MARK_END = false →
      (ensureAgentsHook (some content) relPath .append
        = (some (trimEndCL content ++ str "\n\n" ++ agentsHookBlock ++ ['\n']),
           .ok .updated)) ∧
      (ensureAgentsHook (some content) relPath .skip = (some content, .ok .skipped)) ∧
      (ensureAgentsHook (some content) relPath .fail
        = (some content, .error (str "AGENTS hook missing in " ++ relPath ++
            str ". Re-run with agentsMode=append to auto-insert.")))) := by
  refine ⟨rfl, ?_, ?_, ?_⟩
  · intro h1 h2
    simp [ensureAgentsHook, h1, h2]
  · intro hne
    cases ha : containsSub content AGENTS_MARK_START <;>
      cases hb : containsSub content AGENTS_MARK_END
    · rw [ha, hb] at hne
      exact absurd rfl hne
    · simp [ensureAgentsHook, ha, hb]
    · simp [ensureAgentsHook, ha, hb]
    · rw [ha, hb] at hne
      exact absurd rfl hne
  · intro h1 h2
    refine ⟨?_, ?_, ?_⟩ <;> simp [ensureAgentsHook, h1, h2]

/-- C6 witness: a file without markers under `fail` mode raises the
hook-missing error and keeps the contents. -/
theorem ensureAgentsHook_cases_witness :
    ensureAgentsHook (some (str "# Existing instructions")) (str "AGENTS.md")
        AgentsHookMode.fail
      = (some (str "# Existing instructions"),
         .error (str "AGENTS hook missing in " ++ str "AGENTS.md" ++
           str ". Re-run with agentsMode=append to auto-insert.")) :=
  ((ensureAgentsHook_cases .fail (str "AGENTS.md")
      (str "# Existing instructions")).2.2.2 (by decide) (by decide)).2.2

/- ===== C10 ===== -/

theorem head_dropWhile_not_ws (p : Char → Bool) (l : Str) :
    ∀ c, (l.dropWhile p).head? = some c → p c = false := by
  induction l with
  | nil => simp
  | cons a l ih =>
    by_cases ha : p a
    · simpa [List.dropWhile_cons, ha] using ih
    · intro c hc
      simp [List.dropWhile_cons, ha] at hc
      subst hc
      simpa using ha

theorem natDigitsAux_not_ws (fuel : Nat) :
    ∀ n, ∀ c ∈ natDigitsAux fuel n, isJsWs c = false := by
  have hd : ∀ k, k < 10 → isJsWs (Nat.digitChar k) = false := by decide
  induction fuel with
  | zero => simp [natDigitsAux]
  | succ fuel ih =>
    intro n c hc
    rw [natDigitsAux] at hc
    split at hc
    · simp only [List.mem_singleton] at hc
      subst hc
      exact hd n ‹n < 10›
    · rcases List.mem_append.mp hc with hm | hm
      · exact ih (n / 10) c hm
      · simp only [List.mem_singleton] at hm
        subst hm
        exact hd (n % 10) (Nat.mod_lt _ (by decide))

theorem natDigits_not_ws (n : Nat) : ∀ c ∈ natDigits n, isJsWs c = false :=
  natDigitsAux_not_ws (n + 1) n

/-- From a member-wise non-whitespace fact, both string ends are clean. -/
theorem ends_not_ws_of_all (s : Str) (h : ∀ c ∈ s, isJsWs c = false) :
    (∀ c, s.head? = some c → isJsWs c = false) ∧
    (∀ c, s.getLast? = some c → isJsWs c = false) := by
  constructor
  · intro c hc
    exact h c (List.mem_of_mem_head? hc)
  · intro c hc
    refine h c ?_
    rw [← List.head?_reverse] at hc
    exact List.mem_reverse.mp (List.mem_of_mem_head? hc)

theorem trimCL_head_not_ws (s : Str) :
    ∀ c, (trimCL s).head? = some c → isJsWs c = false := by
  intro c hc
  rw [trimCL, trimEndCL] at hc
  have hsuffix : ((dropLeadWs s).reverse.dropWhile isJsWs) <:+ (dropLeadWs s).reverse :=
    List.dropWhile_suffix _
  have hpre : ((dropLeadWs s).reverse.dropWhile isJsWs).reverse <+: dropLeadWs s := by
    have := List.reverse_prefix.mpr hsuffix
    simpa using this
  obtain ⟨rest, hrest⟩ := hpre
  have hhead : (dropLeadWs s).head? = some c := by
    rw [← hrest]
    cases hu : ((dropLeadWs s).reverse.dropWhile isJsWs).reverse with
    | nil => rw [hu] at hc; simp at hc
    | cons x xs =>
      rw [hu] at hc
      simp at hc
      subst hc
      rfl
  exact head_dropWhile_not_ws isJsWs s c hhead

theorem trimCL_getLast_not_ws (s : Str) :
    ∀ c, (trimCL s).getLast? = some c → isJsWs c = false := by
  intro c hc
  rw [trimCL, trimEndCL, List.getLast?_reverse] at hc
  exact head_dropWhile_not_ws isJsWs (dropLeadWs s).reverse c hc

theorem toCsvCell_ends_not_ws (v : Str) :
    (∀ c, (toCsvCell v).head? = some c → isJsWs c = false) ∧
    (∀ c, (toCsvCell v).getLast? = some c → isJsWs c = false) := by
  rw [toCsvCell]
  split
  · constructor
    · intro c hc
      simp at hc
      subst hc
      decide
    · intro c hc
      rw [show ('"' :: (doubleQuotes (trimCL (replaceNewlines v)) ++ ['"']))
            = ('"' :: doubleQuotes (trimCL (replaceNewlines v))) ++ ['"'] from rfl,
          List.getLast?_concat] at hc
      simp at hc
      subst hc
      decide
  · exact ⟨trimCL_head_not_ws _, trimCL_getLast_not_ws _⟩

/-- C10. Every cell rendered into the plan CSV, in both the full and the lite
schema, has no leading and no trailing whitespace: `toCsvCell` trims after
newline replacement and before quoting, numeric cells are bare digits, and
status cells are the fixed uppercase words. -/
theorem csv_cells_no_surrounding_ws (idx : Nat) (row : CsvRow) (cell : Str)
    (h : cell ∈ renderCsvCells idx row ∨ cell ∈ renderLiteCsvCells idx row) :
    (∀ c, cell.head? = some c → isJsWs c = false) ∧
    (∀ c, cell.getLast? = some c → isJsWs c = false) := by
  have hstatus : (∀ c, (csvStatusText row.status).head? = some c → isJsWs c = false) ∧
      (∀ c, (csvStatusText row.status).getLast? = some c → isJsWs c = false) := by
    refine ends_not_ws_of_all _ ?_
    cases row.status <;> decide
  have hlite : (∀ c, (mapStatusLite row.status).head? = some c → isJsWs c = false) ∧
      (∀ c, (mapStatusLite row.status).getLast? = some c → isJsWs c = false) := by
    refine ends_not_ws_of_all _ ?_
    rw [mapStatusLite]
    split <;> decide
  rcases h with h | h <;>
    simp only [renderCsvCells, renderLiteCsvCells, List.mem_cons,
      List.not_mem_nil, or_false] at h
  · rcases h with rfl | rfl | rfl | rfl | rfl | rfl | rfl | rfl
    · exact ends_not_ws_of_all _ (natDigits_not_ws _)
    · exact toCsvCell_ends_not_ws _
    · exact hstatus
    · exact toCsvCell_ends_not_ws _
    · exact toCsvCell_ends_not_ws _
    · exact toCsvCell_ends_not_ws _
    · exact ends_not_ws_of_all _ (natDigits_not_ws _)
    · exact toCsvCell_ends_not_ws _
  · rcases h with rfl | rfl | rfl | rfl | rfl
    · exact ends_not_ws_of_all _ (natDigits_not_ws _)
    · exact toCsvCell_ends_not_ws _
    · exact hlite
    · exact toCsvCell_ends_not_ws _
    · exact toCsvCell_ends_not_ws _

/-- C10 witness: the notes cell of a concrete row with padded notes text. -/
theorem csv_cells_no_surrounding_ws_witness :
    (∀ c, (toCsvCell (str "  padded notes ")).head? = some c → isJsWs c = false) ∧
    (∀ c, (toCsvCell (str "  padded notes ")).getLast? = some c → isJsWs c = false) :=
  csv_cells_no_surrounding_ws 0
    { taskId := str "1", title := str "t", status := .todo,
      acceptanceCriteria := str "", validationCommand := str "echo SKIP",
      completedAt := str "", retryCount := 0, notes := str "  padded notes ",
      dependencies := [] }
    (toCsvCell (str "  padded notes "))
    (Or.inl (by decide))

/- ===== C7 ===== -/

/-- The file state after one clean-project initialization. -/
def initializedFs : AssetsFs :=
  { agents := some (agentsHookBlock ++ ['\n']),
    skillAgents := some FALLBACK_UPSTREAM_AGENTS,
    skill := some (mergeSkillWithIntegrationAddon DEFAULT_SKILL_TEMPLATE),
    gitignore := some GITIGNORE_TEMPLATE,
    specFile := some SPEC_TEMPLATE,
    progressFile := some DEFAULT_PROGRESS_TEMPLATE }

theorem initAssets_clean_run :
    initAssets .full .append (str "AGENTS.md") cleanAssetsFs = (initializedFs, .ok ()) := rfl

theorem ensureCodexTasksGitignore_second :
    ensureCodexTasksGitignore (some GITIGNORE_TEMPLATE) = some GITIGNORE_TEMPLATE := by
  decide

theorem ensureAgentsHook_second :
    ensureAgentsHook (some (agentsHookBlock ++ ['\n'])) (str "AGENTS.md") .append
      = (some (agentsHookBlock ++ ['\n']), .ok .skipped) := by
  have h1 : containsSub (agentsHookBlock ++ ['\n']) AGENTS_MARK_START = true := by decide
  have h2 : containsSub (agentsHookBlock ++ ['\n']) AGENTS_MARK_END = true := by decide
  simp [ensureAgentsHook, h1, h2]

theorem ensureUpstreamAgentsTemplate_second :
    (ensureUpstreamAgentsTemplate (some FALLBACK_UPSTREAM_AGENTS)).1
      = some FALLBACK_UPSTREAM_AGENTS := by
  simp only [ensureUpstreamAgentsTemplate]
  split <;> rfl

theorem ensureSkillTemplate_second :
    (ensureSkillTemplate (some (mergeSkillWithIntegrationAddon DEFAULT_SKILL_TEMPLATE))).1
      = some (mergeSkillWithIntegrationAddon DEFAULT_SKILL_TEMPLATE) := by
  simp only [ensureSkillTemplate]
  split
  · rfl
  · split <;> rfl

theorem initAssets_second_run :
    initAssets .full .append (str "AGENTS.md") initializedFs = (initializedFs, .ok ()) := by
  simp only [initAssets, initializedFs, ensureCodexTasksGitignore_second,
    ensureAgentsHook_second, ensureUpstreamAgentsTemplate_second,
    ensureSkillTemplate_second, ensureSpecTemplate, ensureProgressTemplate]

set_option maxRecDepth 16000 in
/-- C7. `initAssets` is idempotent on a clean project: the first run succeeds,
the second run leaves every touched file byte-identical, the agent-context
file holds exactly one `TM-LONGRUN` hook block, the skill file exactly one
`TM-INTEGRATION` addendum block, and the session gitignore contains its `*`
and `!.gitignore` entries exactly once. -/
theorem initAssets_idempotent :
    (initAssets .full .append (str "AGENTS.md") cleanAssetsFs).2 = .ok () ∧
    (initAssets .full .append (str "AGENTS.md")
        (initAssets .full .append (str "AGENTS.md") cleanAssetsFs).1).1
      = (initAssets .full .append (str "AGENTS.md") cleanAssetsFs).1 ∧
    countOccur AGENTS_MARK_START
      ((initAssets .full .append (str "AGENTS.md") cleanAssetsFs).1.agents.getD []) = 1 ∧
    countOccur AGENTS_MARK_END
      ((initAssets .full .append (str "AGENTS.md") cleanAssetsFs).1.agents.getD []) = 1 ∧
    countOccur SKILL_INTEGRATION_MARK_START
      ((initAssets .full .append (str "AGENTS.md") cleanAssetsFs).1.skill.getD []) = 1 ∧
    countOccur SKILL_INTEGRATION_MARK_END
      ((initAssets .full .append (str "AGENTS.md") cleanAssetsFs).1.skill.getD []) = 1 ∧
    countOccur (str "*")
      ((initAssets .full .append (str "AGENTS.md") cleanAssetsFs).1.gitignore.getD []) = 1 ∧
    countOccur (str "!.gitignore")
      ((initAssets .full .append (str "AGENTS.md") cleanAssetsFs).1.gitignore.getD []) = 1 := by
  rw [initAssets_clean_run]
  refine ⟨rfl, ?_, ?_, ?_, ?_, ?_, ?_, ?_⟩
  · rw [show ((initializedFs, (Except.ok () : Except Str Unit)).1) = initializedFs from rfl,
      initAssets_second_run]
  · decide
  · decide
  · decide
  · decide
  · decide
  · decide

end SkillRun
